import Mathlib

/-!
Verification of the round-reconciliation and registry-reconciliation core
of the clr.fund web frontend (`round.ts` and `recipient-registry-kleros.ts`).

The TypeScript source is shallowly embedded: event streams become Lean
lists of event records, point-in-time contract reads become explicit
function-valued environment fields, `BigNumber` amounts and timestamps
become `Nat`, and JavaScript truthiness on the optional numeric
`startBlock` / `endBlock` parameters is made explicit (`jsTruthy`:
`undefined` and `0` are both falsy).
-/

namespace ClrFund

/-- `RoundStatus` enum from `round.ts`. -/
inductive RoundStatus where
  | Contributing
  | Reallocating
  | Tallying
  | Finalized
  | Cancelled
deriving DecidableEq

/-- The time-based branch of the status derivation in `getRoundInfo`
(`round.ts` lines 206-212): `Contributing` before the sign-up deadline,
`Reallocating` before the voting deadline, `Tallying` afterwards. -/
def timeBasedStatus (now signUpDeadline votingDeadline : Nat) : RoundStatus :=
  if now < signUpDeadline then RoundStatus.Contributing
  else if now < votingDeadline then RoundStatus.Reallocating
  else RoundStatus.Tallying

/-- Status derivation of `getRoundInfo` (`round.ts` lines 169-174 and
197-212).  The deadlines are computed from the MACI sign-up timestamp and
the two durations exactly as in the source:
`signUpDeadline = signUpTimestamp + signUpDuration`,
`votingDeadline = signUpDeadline + votingDuration`.  `Cancelled` and
`Finalized` flags are checked first, in that order. -/
def roundStatus (isCancelled isFinalized : Bool)
    (now signUpTimestamp signUpDuration votingDuration : Nat) : RoundStatus :=
  if isCancelled then RoundStatus.Cancelled
  else if isFinalized then RoundStatus.Finalized
  else timeBasedStatus now (signUpTimestamp + signUpDuration)
    (signUpTimestamp + signUpDuration + votingDuration)

/-- The five statuses, for the exactly-one-status count. -/
def allRoundStatuses : List RoundStatus :=
  [RoundStatus.Contributing, RoundStatus.Reallocating, RoundStatus.Tallying,
   RoundStatus.Finalized, RoundStatus.Cancelled]

/-- `getApprovedFunding` (`round.ts` lines 91-115): fold over all
`FundingSourceAdded` events; an added source for which any
`FundingSourceRemoved` event with the same address exists is skipped,
otherwise `min(allowance, balance)` is added to the running total
(`allowance.lt(balance) ? allowance : balance`). -/
def getApprovedFunding (addSourceEvents removeSourceEvents : List String)
    (allowance balance : String → Nat) : Nat :=
  addSourceEvents.foldl (fun total sourceAddress =>
    match removeSourceEvents.find? (fun r => r == sourceAddress) with
    | some _ => total
    | none => total + min (allowance sourceAddress) (balance sourceAddress)) 0

/-- The currently-active funding sources, in the spec's words (§4.2): the
added sources with no removal event for the same address.  Used to compare
`getApprovedFunding` against the spec's description. -/
def activeSources (addSourceEvents removeSourceEvents : List String) : List String :=
  addSourceEvents.filter (fun s => !(removeSourceEvents.contains s))

/-- JavaScript `toLowerCase`, modelled character by character (the
compared values are hexadecimal addresses, so the ASCII case fold of
`Char.toLower` is exact). -/
def lowercase (s : String) : String :=
  String.mk (s.data.map Char.toLower)

/-- `findIndex` scan of `getRoundNumber` (`round.ts` lines 120-123):
index of the first `RoundStarted` event whose `_round` argument equals the
given address case-insensitively. -/
def findRoundIndex (roundAddress : String) : List String → Option Nat
  | [] => none
  | a :: rest =>
      if lowercase a = lowercase roundAddress then some 0
      else (findRoundIndex roundAddress rest).map (· + 1)

/-- `getRoundNumber` (`round.ts` lines 117-128): scan the factory's
`RoundStarted` events for the address (case-insensitive); throw
`round does not exist` when absent, otherwise return the index plus
`extraRounds.length`. -/
def getRoundNumber (roundStartedEvents : List String) (extraRounds : List String)
    (roundAddress : String) : Except String Nat :=
  match findRoundIndex roundAddress roundStartedEvents with
  | none => Except.error "round does not exist"
  | some roundIndex => Except.ok (roundIndex + extraRounds.length)

/-- A `RecipientAdded` event of the local Kleros registry adapter
(`recipient-registry-kleros.ts`): item id, raw metadata payload
(`_metadata`), registry index (`_index`), and the ledger block number. -/
structure AddedEvent where
  tcrItemId : String
  metadata : String
  index : Nat
  blockNumber : Nat
deriving DecidableEq

/-- A `RecipientRemoved` event of the local registry: item id and block
number. -/
structure RemovedEvent where
  tcrItemId : String
  blockNumber : Nat
deriving DecidableEq

/-- A column of the curated list's schema (`TcrColumn`: `label`, `type`). -/
structure TcrColumn where
  label : String
  columnType : String
deriving DecidableEq

/-- The curated-list-only `extra` bag of a project. -/
structure ProjectExtra where
  tcrItemStatus : Nat
  tcrItemUrl : String
deriving DecidableEq

/-- `Project` record (`projects.ts` interface, as populated by
`recipient-registry-kleros.ts`). -/
structure Project where
  id : String
  address : String
  name : String
  description : String
  imageUrl : String
  index : Nat
  isHidden : Bool
  isLocked : Bool
  extra : Option ProjectExtra := none
deriving DecidableEq

/-- The external `gtcrDecode` collaborator, modelled from the spec: per
§4.3 and §7 metadata-decode failures are suppressed and per-item only, so
the decoder is a total function from the column schema and the raw
payload to a list of optional column values (a failed column yields no
value). -/
abbrev GtcrDecoder := List TcrColumn → String → List (Option String)

/-- `TcrItemStatus.Registered = 1` from the `TcrItemStatus` enum. -/
def tcrRegisteredStatus : Nat := 1

/-- `KLEROS_CURATE_URL` constant. -/
def klerosCurateUrl : String :=
  "https://curate.kleros.io/tcr/0x2E3B10aBf091cdc53cC892A50daBDb432e220398"

/-- The four presentation fields produced by `decodeTcrItemData`. -/
structure DecodedItem where
  address : String
  name : String
  description : String
  imageUrl : String
deriving DecidableEq

/-- `decodeTcrItemData` (`recipient-registry-kleros.ts` lines 34-53):
read the decoded column values at the source's fixed positions (name 0,
address 1, image path 2, description 3); a value the decoder failed to
produce is downgraded to the empty string for that field. -/
def decodeTcrItemData (gtcrDecode : GtcrDecoder) (ipfsGatewayUrl : String)
    (columns : List TcrColumn) (data : String) : DecodedItem :=
  let decodedMetadata := gtcrDecode columns data
  { address := (decodedMetadata.getD 1 none).getD ""
    name := (decodedMetadata.getD 0 none).getD ""
    description := (decodedMetadata.getD 3 none).getD ""
    imageUrl := ipfsGatewayUrl ++ (decodedMetadata.getD 2 none).getD "" }

/-- `decodeRecipientAdded` (`recipient-registry-kleros.ts` lines 55-64). -/
def decodeRecipientAdded (gtcrDecode : GtcrDecoder) (ipfsGatewayUrl : String)
    (columns : List TcrColumn) (event : AddedEvent) : Project :=
  let d := decodeTcrItemData gtcrDecode ipfsGatewayUrl columns event.metadata
  { id := event.tcrItemId
    address := d.address
    name := d.name
    description := d.description
    imageUrl := d.imageUrl
    index := event.index
    isHidden := false
    isLocked := false
    extra := none }

/-- JavaScript truthiness of the optional numeric block parameters:
`undefined` and `0` are falsy, every other number is truthy. -/
def jsTruthy : Option Nat → Bool
  | none => false
  | some n => n != 0

/-- First mutation of the first loop of `getProjects`
(`recipient-registry-kleros.ts` lines 82-87): set `isHidden` when a
truthy `endBlock` is given and the add event's block is at or after it
(`endBlock && event.blockNumber >= endBlock`). -/
def applyEndBlockFlag (endBlock : Option Nat) (event : AddedEvent)
    (project : Project) : Project :=
  if jsTruthy endBlock ∧ endBlock.getD 0 ≤ event.blockNumber then
    { project with isHidden := true }
  else project

/-- Second mutation of the first loop of `getProjects`
(`recipient-registry-kleros.ts` lines 88-99): look up the first removal
event with the same item id — when one exists, set `isHidden` if
`startBlock` is falsy or the removal block is at or before it
(`!startBlock || startBlock && removed.blockNumber <= startBlock`),
otherwise set `isLocked`. -/
def applyRemovalFlags (startBlock : Option Nat)
    (recipientRemovedEvents : List RemovedEvent) (event : AddedEvent)
    (project : Project) : Project :=
  match recipientRemovedEvents.find? (fun r => r.tcrItemId == event.tcrItemId) with
  | some removed =>
      if jsTruthy startBlock = false ∨ removed.blockNumber ≤ startBlock.getD 0 then
        { project with isHidden := true }
      else
        { project with isLocked := true }
  | none => project

/-- Body of the first loop of `getProjects`
(`recipient-registry-kleros.ts` lines 80-100): decode the added
recipient, then apply the `endBlock` visibility mutation and the
removal-event mutation in the source's order. -/
def processAddedEvent (gtcrDecode : GtcrDecoder) (ipfsGatewayUrl : String)
    (columns : List TcrColumn) (startBlock endBlock : Option Nat)
    (recipientRemovedEvents : List RemovedEvent) (event : AddedEvent) : Project :=
  applyRemovalFlags startBlock recipientRemovedEvents event
    (applyEndBlockFlag endBlock event
      (decodeRecipientAdded gtcrDecode ipfsGatewayUrl columns event))

/-- The ledger environment of the registry reconciler: the event streams
and point-in-time reads used by `getProjects` and `getProject`.
`metaEvidence` holds the `_evidence` paths of the curated list's
`MetaEvidence` events in emission order; `fetchSchema` is the off-ledger
document fetch returning the column schema (`none` models a failing
fetch); `itemSubmitted` holds the `_itemID` arguments of the curated
list's `ItemSubmitted` events; `itemInfo` is the curated list's
`getItemInfo` read, returning the item's byte payload and numeric
status. -/
structure RegistryEnv where
  metaEvidence : List String
  fetchSchema : String → Option (List TcrColumn)
  recipientAdded : List AddedEvent
  recipientRemoved : List RemovedEvent
  itemSubmitted : List String
  itemInfo : String → String × Nat

/-- `getTcrColumns` (`recipient-registry-kleros.ts` lines 23-32): take
the second-to-last `MetaEvidence` event and fetch the schema document it
references; with fewer than two events the source crashes on an undefined
event (modelled as unavailability), and a failing fetch is also
unavailability. -/
def getTcrColumns (env : RegistryEnv) : Option (List TcrColumn) :=
  if env.metaEvidence.length < 2 then none
  else
    match env.metaEvidence[env.metaEvidence.length - 2]? with
    | none => none
    | some ipfsPath => env.fetchSchema ipfsPath

/-- The reconciler's structural failure (spec §7 `SchemaUnavailable`). -/
inductive ReconcileError where
  | schemaUnavailable
deriving DecidableEq

/-- Body of the second loop of `getProjects`
(`recipient-registry-kleros.ts` lines 105-129): skip the submitted item
when a project with the same id is already present; otherwise read the
item's current data and status from the curated list, skip unless the
status is `Registered`, and append a project with sentinel `index = 0`,
both flags false, and the curated-list `extra` data. -/
def processSubmittedItem (gtcrDecode : GtcrDecoder) (ipfsGatewayUrl : String)
    (columns : List TcrColumn) (itemInfo : String → String × Nat)
    (projects : List Project) (tcrItemId : String) : List Project :=
  match projects.find? (fun item => item.id == tcrItemId) with
  | some _ => projects
  | none =>
      let info := itemInfo tcrItemId
      if info.2 != tcrRegisteredStatus then projects
      else
        let d := decodeTcrItemData gtcrDecode ipfsGatewayUrl columns info.1
        projects ++
          [{ id := tcrItemId
             address := d.address
             name := d.name
             description := d.description
             imageUrl := d.imageUrl
             index := 0
             isHidden := false
             isLocked := false
             extra := some { tcrItemStatus := tcrRegisteredStatus
                             tcrItemUrl := klerosCurateUrl ++ "/" ++ tcrItemId } }]

/-- The two passes of `getProjects` once the column schema is resolved:
map the first-loop body over the `RecipientAdded` events, then fold the
second-loop body over the curated list's submitted item ids. -/
def getProjectsFrom (gtcrDecode : GtcrDecoder) (ipfsGatewayUrl : String)
    (columns : List TcrColumn) (env : RegistryEnv)
    (startBlock endBlock : Option Nat) : List Project :=
  let projects := env.recipientAdded.map
    (processAddedEvent gtcrDecode ipfsGatewayUrl columns startBlock endBlock
      env.recipientRemoved)
  env.itemSubmitted.foldl
    (processSubmittedItem gtcrDecode ipfsGatewayUrl columns env.itemInfo)
    projects

/-- `getProjects` (`recipient-registry-kleros.ts` lines 66-131). -/
def getProjects (gtcrDecode : GtcrDecoder) (ipfsGatewayUrl : String)
    (env : RegistryEnv) (startBlock endBlock : Option Nat) :
    Except ReconcileError (List Project) :=
  match getTcrColumns env with
  | none => Except.error ReconcileError.schemaUnavailable
  | some columns =>
      Except.ok
        (getProjectsFrom gtcrDecode ipfsGatewayUrl columns env startBlock endBlock)

/-- `getProjects` output with the failure case defaulted to `[]`, for
concrete evaluation in counterexamples and witnesses. -/
def getProjectsD (gtcrDecode : GtcrDecoder) (ipfsGatewayUrl : String)
    (env : RegistryEnv) (startBlock endBlock : Option Nat) : List Project :=
  (getProjects gtcrDecode ipfsGatewayUrl env startBlock endBlock).toOption.getD []

/-- The project record `getProject` builds before the local-event
overlays (`recipient-registry-kleros.ts` lines 146-157): decoded
presentation fields, sentinel `index = 0`, both flags false, and the
curated-list `extra` data from the `getItemInfo` read. -/
def baseLookupProject (gtcrDecode : GtcrDecoder) (ipfsGatewayUrl : String)
    (env : RegistryEnv) (columns : List TcrColumn)
    (recipientId : String) : Project :=
  let d := decodeTcrItemData gtcrDecode ipfsGatewayUrl columns
    (env.itemInfo recipientId).1
  { id := recipientId
    address := d.address
    name := d.name
    description := d.description
    imageUrl := d.imageUrl
    index := 0
    isHidden := false
    isLocked := false
    extra := some { tcrItemStatus := (env.itemInfo recipientId).2
                    tcrItemUrl := klerosCurateUrl ++ "/" ++ recipientId } }

/-- First overlay of `getProject` (`recipient-registry-kleros.ts` lines
158-163): recover the registry index from the first `RecipientAdded`
event filtered by this id, when one exists. -/
def applyLocalIndex (env : RegistryEnv) (recipientId : String)
    (project : Project) : Project :=
  match env.recipientAdded.filter (fun e => e.tcrItemId == recipientId) with
  | [] => project
  | e :: _ => { project with index := e.index }

/-- Second overlay of `getProject` (`recipient-registry-kleros.ts` lines
164-168): set `isLocked` when any `RecipientRemoved` event filtered by
this id exists. -/
def applyLocalRemoval (env : RegistryEnv) (recipientId : String)
    (project : Project) : Project :=
  if (env.recipientRemoved.filter (fun e => e.tcrItemId == recipientId)).isEmpty
  then project
  else { project with isLocked := true }

/-- `getProject` (`recipient-registry-kleros.ts` lines 133-170): read the
item's current data and status from the curated list; return `null` when
the data is the empty byte payload `0x`; otherwise build the base record
and apply the two local-event overlays in the source's order.
`isHidden` is never set on this path. -/
def getProject (gtcrDecode : GtcrDecoder) (ipfsGatewayUrl : String)
    (env : RegistryEnv) (recipientId : String) :
    Except ReconcileError (Option Project) :=
  match getTcrColumns env with
  | none => Except.error ReconcileError.schemaUnavailable
  | some columns =>
      if (env.itemInfo recipientId).1 = "0x" then Except.ok none
      else
        Except.ok (some (applyLocalRemoval env recipientId
          (applyLocalIndex env recipientId
            (baseLookupProject gtcrDecode ipfsGatewayUrl env columns
              recipientId))))

/-- The decoder-independent part of a project record: id, registry index
and the two flags. -/
def projectSkeleton (p : Project) : String × Nat × Bool × Bool :=
  (p.id, p.index, p.isHidden, p.isLocked)

/-- Decoder yielding no values: models an item whose metadata fails to
decode entirely. -/
def emptyDecoder : GtcrDecoder := fun _ _ => []

/-- Two `MetaEvidence` evidence paths, so the schema scan succeeds. -/
def twoMetaEvidence : List String := ["meta0", "meta1"]

/-- Schema fetch that always succeeds with an empty column list. -/
def constSchema : String → Option (List TcrColumn) := fun _ => some []

/-- Environment with two `RecipientAdded` events for the same id `"5"`. -/
def dupAddedEnv : RegistryEnv :=
  { metaEvidence := twoMetaEvidence
    fetchSchema := constSchema
    recipientAdded :=
      [{ tcrItemId := "5", metadata := "m1", index := 2, blockNumber := 10 },
       { tcrItemId := "5", metadata := "m2", index := 3, blockNumber := 11 }]
    recipientRemoved := []
    itemSubmitted := []
    itemInfo := fun _ => ("0x", 0) }

/-- Environment with distinct locally-added ids and duplicate curated-list
submissions (two submissions of `"9"`, one of the already-added `"5"`). -/
def dupSubmittedEnv : RegistryEnv :=
  { metaEvidence := twoMetaEvidence
    fetchSchema := constSchema
    recipientAdded :=
      [{ tcrItemId := "5", metadata := "m1", index := 2, blockNumber := 10 }]
    recipientRemoved := []
    itemSubmitted := ["9", "9", "5"]
    itemInfo := fun _ => ("0xdata", 1) }

/-- Environment where id `"5"` is added at block 300 (after the round's
end block 200) and removed at block 60. -/
def lateAddedEnv : RegistryEnv :=
  { metaEvidence := twoMetaEvidence
    fetchSchema := constSchema
    recipientAdded :=
      [{ tcrItemId := "5", metadata := "m", index := 2, blockNumber := 300 }]
    recipientRemoved := [{ tcrItemId := "5", blockNumber := 60 }]
    itemSubmitted := []
    itemInfo := fun _ => ("0x", 0) }

/-- Environment with a single recipient added at block 10 and never
removed. -/
def plainAddedEnv : RegistryEnv :=
  { metaEvidence := twoMetaEvidence
    fetchSchema := constSchema
    recipientAdded :=
      [{ tcrItemId := "5", metadata := "m", index := 1, blockNumber := 10 }]
    recipientRemoved := []
    itemSubmitted := []
    itemInfo := fun _ => ("0x", 0) }

/-- Environment whose only project comes from the curated-list pass: one
submitted item `"9"` with status `Registered` and no local events. -/
def submittedOnlyEnv : RegistryEnv :=
  { metaEvidence := twoMetaEvidence
    fetchSchema := constSchema
    recipientAdded := []
    recipientRemoved := []
    itemSubmitted := ["9"]
    itemInfo := fun _ => ("0xdata", 1) }

/-- The single project produced by `submittedOnlyEnv`. -/
def submittedOnlyProject : Project :=
  { id := "9"
    address := ""
    name := ""
    description := ""
    imageUrl := ""
    index := 0
    isHidden := false
    isLocked := false
    extra := some { tcrItemStatus := tcrRegisteredStatus
                    tcrItemUrl := klerosCurateUrl ++ "/" ++ "9" } }

/-- Environment for the single-item lookup: item `"7"` has data in the
curated list, a local add event with index 4, and a local removal. -/
def lookupEnv : RegistryEnv :=
  { metaEvidence := twoMetaEvidence
    fetchSchema := constSchema
    recipientAdded :=
      [{ tcrItemId := "7", metadata := "m", index := 4, blockNumber := 10 }]
    recipientRemoved := [{ tcrItemId := "7", blockNumber := 20 }]
    itemSubmitted := []
    itemInfo := fun recipientId =>
      if recipientId = "7" then ("0xdata", 1) else ("0x", 0) }

/-- The record returned by the single-item lookup on `lookupEnv`. -/
def lookupResultProject : Project :=
  applyLocalRemoval lookupEnv "7" (applyLocalIndex lookupEnv "7"
    (baseLookupProject emptyDecoder "" lookupEnv [] "7"))


end ClrFund

namespace ClrFund

/-- Helper: the funding fold started at `n` is `n` plus the fold started at `0`. -/
theorem getApprovedFunding_foldl_init (adds removes : List String)
    (allowance balance : String → Nat) (n : Nat) :
    adds.foldl (fun total sourceAddress =>
      match removes.find? (fun r => r == sourceAddress) with
      | some _ => total
      | none => total + min (allowance sourceAddress) (balance sourceAddress)) n
    = n + ((activeSources adds removes).map
        (fun s => min (allowance s) (balance s))).sum := by
  induction adds generalizing n with
  | nil => simp [activeSources]
  | cons a rest ih =>
    simp only [activeSources] at ih
    simp only [List.foldl_cons, activeSources, List.filter_cons]
    cases hfind : removes.find? (fun r => r == a) with
    | some r =>
        have hmem : removes.contains a = true := by
          have := List.find?_some hfind
          have hr : r = a := by simpa using this
          subst hr
          exact List.elem_eq_true_of_mem (List.mem_of_find?_eq_some hfind)
        simp only [hfind, hmem, Bool.not_true, ite_false]
        exact ih n
    | none =>
        have hmem : removes.contains a = false := by
          by_contra hc
          have hc' : removes.contains a = true := by
            cases h : removes.contains a with
            | true => rfl
            | false => exact absurd h hc
          have hx : a ∈ removes := by
            have := List.mem_of_elem_eq_true hc'
            exact this
          have := List.find?_eq_none.mp hfind a hx
          simp at this
        simp only [hfind, hmem, Bool.not_false, ite_true, List.map_cons, List.sum_cons]
        rw [ih, Nat.add_assoc]

/-- Each status occurs exactly once in the enumeration of the five statuses. -/
theorem count_allRoundStatuses (s : RoundStatus) : allRoundStatuses.count s = 1 := by
  cases s <;> decide

/-- C1: `getRoundInfo` assigns exactly one status out of
`{Contributing, Reallocating, Tallying, Finalized, Cancelled}`, with the
fixed precedence: `Cancelled` when the `isCancelled` flag is set, else
`Finalized` when the `isFinalized` flag is set, else the time-based value;
since `now` and the deadline parameters are universally quantified, a set
terminal flag forces the terminal status regardless of time. -/
theorem c1_round_status_precedence (c f : Bool) (now st sud vod : Nat) :
    allRoundStatuses.count (roundStatus c f now st sud vod) = 1 ∧
    (c = true → roundStatus c f now st sud vod = RoundStatus.Cancelled) ∧
    (c = false → f = true → roundStatus c f now st sud vod = RoundStatus.Finalized) ∧
    (c = false → f = false →
      roundStatus c f now st sud vod
        = timeBasedStatus now (st + sud) (st + sud + vod)) := by
  refine ⟨count_allRoundStatuses _, ?_, ?_, ?_⟩
  · intro hc; simp [roundStatus, hc]
  · intro hc hf; simp [roundStatus, hc, hf]
  · intro hc hf; simp [roundStatus, hc, hf]

/-- Witness for C1 at concrete flag values and times. -/
theorem c1_round_status_precedence_witness :
    roundStatus true false 7 0 100 50 = RoundStatus.Cancelled ∧
    roundStatus false true 7 0 100 50 = RoundStatus.Finalized :=
  ⟨(c1_round_status_precedence true false 7 0 100 50).2.1 rfl,
   (c1_round_status_precedence false true 7 0 100 50).2.2.1 rfl rfl⟩

/-- C4: the funding-source total is the sum of
`min(allowance(source), balance(source))` over exactly the added sources
with no removal event for the same address (so an added-then-removed
source contributes 0), and it is bounded both by the sum of the active
sources' balances and by the sum of their allowances. -/
theorem c4_funding_total (adds removes : List String)
    (allowance balance : String → Nat) :
    getApprovedFunding adds removes allowance balance
      = ((activeSources adds removes).map
          (fun s => min (allowance s) (balance s))).sum ∧
    getApprovedFunding adds removes allowance balance
      ≤ ((activeSources adds removes).map balance).sum ∧
    getApprovedFunding adds removes allowance balance
      ≤ ((activeSources adds removes).map allowance).sum := by
  have heq : getApprovedFunding adds removes allowance balance
      = ((activeSources adds removes).map
          (fun s => min (allowance s) (balance s))).sum := by
    have h := getApprovedFunding_foldl_init adds removes allowance balance 0
    simpa [getApprovedFunding] using h
  refine ⟨heq, ?_, ?_⟩
  · rw [heq]
    exact List.sum_le_sum (fun s _ => min_le_right _ _)
  · rw [heq]
    exact List.sum_le_sum (fun s _ => min_le_left _ _)

/-- Counterexample for C5 as stated: with `signUpDuration = 100`,
`votingDuration = 50`, `signUpTimestamp = 0` and neither flag set, the
status at `now = 0 + 60` is `Contributing` (60 is still inside the
sign-up phase), not `Reallocating` as the claim asserts. -/
theorem c5_counterexample :
    roundStatus false false 60 0 100 50 = RoundStatus.Contributing ∧
    roundStatus false false 60 0 100 50 ≠ RoundStatus.Reallocating := by
  decide

/-- C5 (amended): for a round with `signUpDuration = 100`,
`votingDuration = 50`, `signUpTimestamp = T`, neither finalized nor
cancelled, the status at `now = T + 60` is `Contributing`, at
`now = T + 120` it is `Reallocating`, and at `now = T + 200` it is
`Tallying`. -/
theorem c5_scenario (T : Nat) :
    roundStatus false false (T + 60) T 100 50 = RoundStatus.Contributing ∧
    roundStatus false false (T + 120) T 100 50 = RoundStatus.Reallocating ∧
    roundStatus false false (T + 200) T 100 50 = RoundStatus.Tallying := by
  unfold roundStatus timeBasedStatus
  refine ⟨?_, ?_, ?_⟩
  · rw [if_neg (by simp), if_neg (by simp), if_pos (by omega)]
  · rw [if_neg (by simp), if_neg (by simp), if_neg (by omega), if_pos (by omega)]
  · rw [if_neg (by simp), if_neg (by simp), if_neg (by omega), if_neg (by omega)]

/-- `findRoundIndex` returns `none` exactly when no event matches the
address case-insensitively. -/
theorem findRoundIndex_eq_none_iff (addr : String) (events : List String) :
    findRoundIndex addr events = none ↔
      ∀ a ∈ events, lowercase a ≠ lowercase addr := by
  induction events with
  | nil => simp [findRoundIndex]
  | cons x rest ih =>
    by_cases h : lowercase x = lowercase addr
    · simp only [findRoundIndex, if_pos h]
      constructor
      · intro hc; exact absurd hc (by simp)
      · intro hall; exact absurd h (hall x (by simp))
    · simp only [findRoundIndex, if_neg h]
      constructor
      · intro hc
        have hnone : findRoundIndex addr rest = none := by
          cases hfi : findRoundIndex addr rest with
          | none => rfl
          | some i => rw [hfi] at hc; simp at hc
        intro a ha
        rcases List.mem_cons.mp ha with rfl | ha'
        · exact h
        · exact (ih.mp hnone) a ha'
      · intro hall
        have hnone : findRoundIndex addr rest = none :=
          ih.mpr (fun a ha => hall a (List.mem_cons_of_mem _ ha))
        simp [hnone]

/-- `findRoundIndex` returns the index of the first case-insensitive
match, mirroring JavaScript `findIndex`. -/
theorem findRoundIndex_first (addr : String) (events : List String)
    (i : Nat) (a : String)
    (hget : events[i]? = some a) (hmatch : lowercase a = lowercase addr)
    (hbefore : ∀ j b, j < i → events[j]? = some b → lowercase b ≠ lowercase addr) :
    findRoundIndex addr events = some i := by
  induction events generalizing i with
  | nil => simp at hget
  | cons x rest ih =>
    by_cases hx : lowercase x = lowercase addr
    · cases i with
      | zero => simp [findRoundIndex, hx]
      | succ n => exact absurd hx (hbefore 0 x (Nat.succ_pos n) (by simp))
    · cases i with
      | zero =>
        have hax : x = a := by simpa using hget
        subst hax
        exact absurd hmatch hx
      | succ n =>
        simp only [findRoundIndex, if_neg hx]
        have hrec := ih n (by simpa using hget)
          (fun j b hj hg => hbefore (j + 1) b (by omega) (by simpa using hg))
        rw [hrec]
        rfl

/-- C8: `getRoundNumber` fails with the round-not-found error exactly when
the address (compared case-insensitively) occurs in none of the factory's
`RoundStarted` events; when the address first occurs at index `i`, the
returned round number is `i + extraRounds.length`. -/
theorem c8_round_number (events extra : List String) (addr : String) :
    (getRoundNumber events extra addr = Except.error "round does not exist" ↔
       ∀ a ∈ events, lowercase a ≠ lowercase addr) ∧
    (∀ i a, events[i]? = some a → lowercase a = lowercase addr →
       (∀ j b, j < i → events[j]? = some b → lowercase b ≠ lowercase addr) →
       getRoundNumber events extra addr = Except.ok (i + extra.length)) := by
  constructor
  · unfold getRoundNumber
    cases hfi : findRoundIndex addr events with
    | none =>
        constructor
        · intro _
          exact (findRoundIndex_eq_none_iff addr events).mp hfi
        · intro _
          rfl
    | some k =>
        constructor
        · intro hc; exact absurd hc (by simp)
        · intro hall
          have hnone : findRoundIndex addr events = none :=
            (findRoundIndex_eq_none_iff addr events).mpr hall
          rw [hnone] at hfi
          cases hfi
  · intro i a hget hmatch hbefore
    unfold getRoundNumber
    rw [findRoundIndex_first addr events i a hget hmatch hbefore]

/-- Witness for C8: a present address (matched case-insensitively at
index 1, with one extra round) and an absent one. -/
theorem c8_round_number_witness :
    getRoundNumber ["0xCD", "0xAB"] ["extra"] "0xab" = Except.ok 2 ∧
    getRoundNumber ["0xAB"] [] "0xEF" = Except.error "round does not exist" := by
  constructor
  · refine (c8_round_number ["0xCD", "0xAB"] ["extra"] "0xab").2 1 "0xAB"
      (by simp) (by decide) ?_
    intro j b hj hg
    have hj0 : j = 0 := by omega
    subst hj0
    have hb : "0xCD" = b := by simpa using hg
    subst hb
    decide
  · exact (c8_round_number ["0xAB"] [] "0xEF").1.mpr (by decide)

/-- The first-loop body keeps the event's item id. -/
theorem processAddedEvent_id (g : GtcrDecoder) (gw : String)
    (cols : List TcrColumn) (sb eb : Option Nat)
    (removes : List RemovedEvent) (e : AddedEvent) :
    (processAddedEvent g gw cols sb eb removes e).id = e.tcrItemId := by
  unfold processAddedEvent applyRemovalFlags applyEndBlockFlag decodeRecipientAdded
  cases removes.find? (fun r => r.tcrItemId == e.tcrItemId) with
  | none => dsimp only; split <;> rfl
  | some removed => dsimp only; split <;> split <;> rfl

/-- The ids of the first pass are exactly the added events' item ids. -/
theorem firstPass_ids (g : GtcrDecoder) (gw : String) (cols : List TcrColumn)
    (sb eb : Option Nat) (removes : List RemovedEvent)
    (added : List AddedEvent) :
    ((added.map (processAddedEvent g gw cols sb eb removes)).map Project.id)
      = added.map AddedEvent.tcrItemId := by
  rw [List.map_map]
  exact List.map_congr_left (fun e _ => processAddedEvent_id g gw cols sb eb removes e)

/-- One step of the second loop either returns the accumulator unchanged
or appends one project whose index is 0 and whose flags are false. -/
theorem processSubmittedItem_cases (g : GtcrDecoder) (gw : String)
    (cols : List TcrColumn) (info : String → String × Nat)
    (acc : List Project) (t : String) (p : Project)
    (hp : p ∈ processSubmittedItem g gw cols info acc t) :
    p ∈ acc ∨ (p.index = 0 ∧ p.isHidden = false ∧ p.isLocked = false ∧ p.id = t) := by
  unfold processSubmittedItem at hp
  cases hf : acc.find? (fun item => item.id == t) with
  | some q => rw [hf] at hp; exact Or.inl hp
  | none =>
      rw [hf] at hp
      dsimp only at hp
      split at hp
      · exact Or.inl hp
      · rcases List.mem_append.mp hp with h1 | h2
        · exact Or.inl h1
        · have hpq := List.mem_singleton.mp h2
          rw [hpq]
          exact Or.inr ⟨rfl, rfl, rfl, rfl⟩

/-- The second loop only ever appends to the accumulator. -/
theorem foldl_processSubmittedItem_append (g : GtcrDecoder) (gw : String)
    (cols : List TcrColumn) (info : String → String × Nat)
    (items : List String) (acc : List Project) :
    ∃ rest, items.foldl (processSubmittedItem g gw cols info) acc = acc ++ rest := by
  induction items generalizing acc with
  | nil => exact ⟨[], by simp⟩
  | cons t rest ih =>
    have hstep : ∃ s, processSubmittedItem g gw cols info acc t = acc ++ s := by
      unfold processSubmittedItem
      cases acc.find? (fun item => item.id == t) with
      | some q => exact ⟨[], by simp⟩
      | none =>
          dsimp only
          split
          · exact ⟨[], by simp⟩
          · exact ⟨_, rfl⟩
    rcases hstep with ⟨s, hs⟩
    rcases ih (processSubmittedItem g gw cols info acc t) with ⟨r2, hr2⟩
    refine ⟨s ++ r2, ?_⟩
    rw [List.foldl_cons, hr2, hs, List.append_assoc]

/-- Membership in the second-loop fold: a project in the result is either
a first-pass project or one appended with index 0 and false flags. -/
theorem mem_foldl_processSubmittedItem (g : GtcrDecoder) (gw : String)
    (cols : List TcrColumn) (info : String → String × Nat)
    (items : List String) (acc : List Project) (p : Project)
    (hp : p ∈ items.foldl (processSubmittedItem g gw cols info) acc) :
    p ∈ acc ∨ (p.index = 0 ∧ p.isHidden = false ∧ p.isLocked = false) := by
  induction items generalizing acc with
  | nil => exact Or.inl hp
  | cons t rest ih =>
    rw [List.foldl_cons] at hp
    rcases ih _ hp with hstep | hnew
    · rcases processSubmittedItem_cases g gw cols info acc t p hstep with h1 | h2
      · exact Or.inl h1
      · exact Or.inr ⟨h2.1, h2.2.1, h2.2.2.1⟩
    · exact Or.inr hnew

/-- The second loop preserves distinctness of the project ids. -/
theorem nodup_foldl_processSubmittedItem (g : GtcrDecoder) (gw : String)
    (cols : List TcrColumn) (info : String → String × Nat)
    (items : List String) (acc : List Project)
    (h : (acc.map Project.id).Nodup) :
    (((items.foldl (processSubmittedItem g gw cols info) acc).map Project.id)).Nodup := by
  induction items generalizing acc with
  | nil => exact h
  | cons t rest ih =>
    rw [List.foldl_cons]
    apply ih
    unfold processSubmittedItem
    cases hf : acc.find? (fun item => item.id == t) with
    | some q => exact h
    | none =>
        dsimp only
        split
        · exact h
        · rw [List.map_append]
          refine (List.nodup_append).mpr ⟨h, List.nodup_singleton _, ?_⟩
          intro x hx hx2
          rcases List.mem_map.mp hx with ⟨q, hq, hqx⟩
          have hxt : x = t := by simpa using hx2
          have hqt : q.id = t := by rw [hqx, hxt]
          have := List.find?_eq_none.mp hf q hq
          simp only [hqt] at this
          simp at this

/-- Counterexample for C2 as stated: with two `RecipientAdded` events for
the same id `"5"`, the output of `getProjects` contains id `"5"` twice —
the first loop pushes one project per add event with no deduplication. -/
theorem c2_counterexample :
    (getProjectsD emptyDecoder "" dupAddedEnv none none).map Project.id = ["5", "5"] ∧
    ¬ ((getProjectsD emptyDecoder "" dupAddedEnv none none).map Project.id).Nodup := by
  decide

/-- C2 (amended): when the local `RecipientAdded` events carry pairwise
distinct item ids, every project id appears at most once in the output of
`getProjects`, even when the curated list's `ItemSubmitted` stream
contains duplicates — the curated-list pass skips every id already
present.  (Duplicate local add events for one id are copied verbatim into
the output, so distinctness of the local stream is required.) -/
theorem c2_dedup (g : GtcrDecoder) (gw : String) (env : RegistryEnv)
    (sb eb : Option Nat) (l : List Project)
    (hids : (env.recipientAdded.map AddedEvent.tcrItemId).Nodup)
    (hok : getProjects g gw env sb eb = Except.ok l) :
    (l.map Project.id).Nodup := by
  unfold getProjects at hok
  cases hcols : getTcrColumns env with
  | none => rw [hcols] at hok; cases hok
  | some cols =>
      rw [hcols] at hok
      injection hok with hok
      subst hok
      unfold getProjectsFrom
      apply nodup_foldl_processSubmittedItem
      rw [firstPass_ids]
      exact hids

/-- Witness for C2: distinct local ids, duplicate curated-list
submissions (`"9"` twice, plus the already-added `"5"`); the output ids
are still distinct. -/
theorem c2_dedup_witness :
    ((getProjectsD emptyDecoder "" dupSubmittedEnv none none).map Project.id).Nodup :=
  c2_dedup emptyDecoder "" dupSubmittedEnv none none
    (getProjectsD emptyDecoder "" dupSubmittedEnv none none) (by decide) rfl

/-- C10: every project in the `getProjects` result whose id has no local
`RecipientAdded` event entered through the curated-list item-submitted
pass and has `isHidden = false`, `isLocked = false` and `index = 0`, for
every choice of the `startBlock`/`endBlock` window — the window
parameters influence flags only for locally-added projects. -/
theorem c10_submitted_only (g : GtcrDecoder) (gw : String) (env : RegistryEnv)
    (sb eb : Option Nat) (l : List Project) (p : Project)
    (hok : getProjects g gw env sb eb = Except.ok l) (hp : p ∈ l)
    (hlocal : ∀ e ∈ env.recipientAdded, e.tcrItemId ≠ p.id) :
    p.isHidden = false ∧ p.isLocked = false ∧ p.index = 0 := by
  unfold getProjects at hok
  cases hcols : getTcrColumns env with
  | none => rw [hcols] at hok; cases hok
  | some cols =>
      rw [hcols] at hok
      injection hok with hok
      subst hok
      unfold getProjectsFrom at hp
      rcases mem_foldl_processSubmittedItem g gw cols env.itemInfo
          env.itemSubmitted _ p hp with hfirst | hnew
      · rcases List.mem_map.mp hfirst with ⟨e, he, hpe⟩
        have hide : e.tcrItemId = p.id := by
          rw [← hpe, processAddedEvent_id]
        exact absurd hide (hlocal e he)
      · exact ⟨hnew.2.1, hnew.2.2, hnew.1⟩

/-- Witness for C10: the submitted-only item `"9"` is in the output with
false flags and index 0 under a nontrivial window. -/
theorem c10_submitted_only_witness :
    submittedOnlyProject.isHidden = false ∧
    submittedOnlyProject.isLocked = false ∧
    submittedOnlyProject.index = 0 := by
  refine c10_submitted_only emptyDecoder "" submittedOnlyEnv (some 10) (some 20)
    (getProjectsD emptyDecoder "" submittedOnlyEnv (some 10) (some 20))
    submittedOnlyProject rfl ?_ ?_
  · decide
  · decide

/-- First-pass projects are members of the `getProjects` output. -/
theorem processAddedEvent_mem_getProjects (g : GtcrDecoder) (gw : String)
    (cols : List TcrColumn) (sb eb : Option Nat) (env : RegistryEnv)
    (e : AddedEvent) (l : List Project)
    (hmem : e ∈ env.recipientAdded)
    (hcols : getTcrColumns env = some cols)
    (hok : getProjects g gw env sb eb = Except.ok l) :
    processAddedEvent g gw cols sb eb env.recipientRemoved e ∈ l := by
  unfold getProjects at hok
  rw [hcols] at hok
  injection hok with hok
  subst hok
  unfold getProjectsFrom
  rcases foldl_processSubmittedItem_append g gw cols env.itemInfo
      env.itemSubmitted (env.recipientAdded.map
        (processAddedEvent g gw cols sb eb env.recipientRemoved)) with ⟨rest, hr⟩
  rw [hr]
  exact List.mem_append_left _ (List.mem_map_of_mem _ hmem)

/-- Auxiliary: `isHidden` after the `endBlock` mutation equals the
truthy-`endBlock`-and-late-add test, and `isLocked` is still false. -/
theorem applyEndBlockFlag_flags (g : GtcrDecoder) (gw : String)
    (cols : List TcrColumn) (eb : Option Nat) (e : AddedEvent) :
    (applyEndBlockFlag eb e (decodeRecipientAdded g gw cols e)).isHidden
      = (jsTruthy eb && decide (eb.getD 0 ≤ e.blockNumber)) ∧
    (applyEndBlockFlag eb e (decodeRecipientAdded g gw cols e)).isLocked
      = false := by
  constructor
  · unfold applyEndBlockFlag
    by_cases h : (jsTruthy eb = true ∧ eb.getD 0 ≤ e.blockNumber)
    · rw [if_pos h, h.1, decide_eq_true h.2]
      rfl
    · rw [if_neg h]
      rw [not_and_or] at h
      rcases h with h1 | h2
      · have hf : jsTruthy eb = false := by
          cases hjb : jsTruthy eb
          · rfl
          · exact absurd hjb h1
        rw [hf, Bool.false_and]
        rfl
      · rw [decide_eq_false h2, Bool.and_false]
        rfl
  · unfold applyEndBlockFlag
    split <;> rfl

/-- Flag characterization of the first-loop body when a removal event
matches: `isHidden`/`isLocked` as functions of the window parameters and
the matched removal. -/
theorem processAddedEvent_flags_of_find (g : GtcrDecoder) (gw : String)
    (cols : List TcrColumn) (sb eb : Option Nat)
    (removes : List RemovedEvent) (e : AddedEvent) (removed : RemovedEvent)
    (hfind : removes.find? (fun r => r.tcrItemId == e.tcrItemId) = some removed) :
    (processAddedEvent g gw cols sb eb removes e).isHidden
      = (if jsTruthy sb = false ∨ removed.blockNumber ≤ sb.getD 0 then true
         else (jsTruthy eb && decide (eb.getD 0 ≤ e.blockNumber))) ∧
    (processAddedEvent g gw cols sb eb removes e).isLocked
      = (if jsTruthy sb = false ∨ removed.blockNumber ≤ sb.getD 0 then false
         else true) := by
  have hmain : processAddedEvent g gw cols sb eb removes e
      = (if jsTruthy sb = false ∨ removed.blockNumber ≤ sb.getD 0 then
          { applyEndBlockFlag eb e (decodeRecipientAdded g gw cols e) with
              isHidden := true }
         else
          { applyEndBlockFlag eb e (decodeRecipientAdded g gw cols e) with
              isLocked := true }) := by
    unfold processAddedEvent applyRemovalFlags
    rw [hfind]
  rw [hmain]
  constructor
  · by_cases hc : (jsTruthy sb = false ∨ removed.blockNumber ≤ sb.getD 0)
    · rw [if_pos hc, if_pos hc]
    · rw [if_neg hc, if_neg hc]
      exact (applyEndBlockFlag_flags g gw cols eb e).1
  · by_cases hc : (jsTruthy sb = false ∨ removed.blockNumber ≤ sb.getD 0)
    · rw [if_pos hc, if_pos hc]
      exact (applyEndBlockFlag_flags g gw cols eb e).2
    · rw [if_neg hc, if_neg hc]

/-- Flag characterization of the first-loop body when no removal event
matches: `isHidden` comes from the `endBlock` check alone and `isLocked`
stays false. -/
theorem processAddedEvent_flags_of_none (g : GtcrDecoder) (gw : String)
    (cols : List TcrColumn) (sb eb : Option Nat)
    (removes : List RemovedEvent) (e : AddedEvent)
    (hnone : removes.find? (fun r => r.tcrItemId == e.tcrItemId) = none) :
    (processAddedEvent g gw cols sb eb removes e).isHidden
      = (jsTruthy eb && decide (eb.getD 0 ≤ e.blockNumber)) ∧
    (processAddedEvent g gw cols sb eb removes e).isLocked = false := by
  have hmain : processAddedEvent g gw cols sb eb removes e
      = applyEndBlockFlag eb e (decodeRecipientAdded g gw cols e) := by
    unfold processAddedEvent applyRemovalFlags
    rw [hnone]
  rw [hmain]
  exact applyEndBlockFlag_flags g gw cols eb e

/-- Counterexample for C3 as stated: id `"5"` added at block 300, removed
at block 60, window `[startBlock = 50, endBlock = 200]`.  The removal is
strictly after `startBlock`, so the claim asserts `isLocked = true` and
`isHidden = false`; the code sets `isLocked = true` but leaves
`isHidden = true` from the `endBlock` check (the add is after block
200), so both flags are true. -/
theorem c3_counterexample :
    (getProjectsD emptyDecoder "" lateAddedEnv (some 50) (some 200)).map
        (fun p => (p.isHidden, p.isLocked)) = [(true, true)] := by
  decide

/-- C3 (amended): in `getProjects`, for a locally-added recipient whose
first matching removal event is `removed`: if `startBlock` is absent, or
zero (falsy, treated like absent), or the removal occurred at or before
`startBlock`, then `isHidden = true`; if `startBlock` is supplied nonzero
and the removal occurred strictly after it, then `isLocked = true` and
`isHidden` keeps the value assigned by the `endBlock` check — true
exactly when a truthy `endBlock` was supplied and the add occurred at or
after it.  Every processed recipient is in the `getProjects` output. -/
theorem c3_removal_flags (g : GtcrDecoder) (gw : String)
    (cols : List TcrColumn) (sb eb : Option Nat)
    (removes : List RemovedEvent) (e : AddedEvent) (removed : RemovedEvent)
    (hfind : removes.find? (fun r => r.tcrItemId == e.tcrItemId) = some removed) :
    (sb = none → (processAddedEvent g gw cols sb eb removes e).isHidden = true) ∧
    (sb = some 0 → (processAddedEvent g gw cols sb eb removes e).isHidden = true) ∧
    (∀ b, sb = some b → removed.blockNumber ≤ b →
       (processAddedEvent g gw cols sb eb removes e).isHidden = true) ∧
    (∀ b, sb = some b → b ≠ 0 → b < removed.blockNumber →
       (processAddedEvent g gw cols sb eb removes e).isLocked = true ∧
       (processAddedEvent g gw cols sb eb removes e).isHidden
         = (jsTruthy eb && decide (eb.getD 0 ≤ e.blockNumber))) ∧
    (∀ env l, env.recipientRemoved = removes → e ∈ env.recipientAdded →
       getTcrColumns env = some cols →
       getProjects g gw env sb eb = Except.ok l →
       processAddedEvent g gw cols sb eb removes e ∈ l) := by
  refine ⟨?_, ?_, ?_, ?_, ?_⟩
  · intro hsb
    subst hsb
    have hcond : jsTruthy none = false ∨
        removed.blockNumber ≤ (none : Option Nat).getD 0 := Or.inl rfl
    rw [(processAddedEvent_flags_of_find g gw cols none eb removes e removed hfind).1,
      if_pos hcond]
  · intro hsb
    subst hsb
    have hcond : jsTruthy (some 0) = false ∨
        removed.blockNumber ≤ (some 0 : Option Nat).getD 0 := Or.inl rfl
    rw [(processAddedEvent_flags_of_find g gw cols (some 0) eb removes e removed hfind).1,
      if_pos hcond]
  · intro b hsb hle
    subst hsb
    have hcond : jsTruthy (some b) = false ∨
        removed.blockNumber ≤ (some b : Option Nat).getD 0 :=
      Or.inr (by simpa using hle)
    rw [(processAddedEvent_flags_of_find g gw cols (some b) eb removes e removed hfind).1,
      if_pos hcond]
  · intro b hsb hb0 hlt
    subst hsb
    have htr : jsTruthy (some b) = true := by simp [jsTruthy, hb0]
    have hnc : ¬ (jsTruthy (some b) = false ∨
        removed.blockNumber ≤ (some b : Option Nat).getD 0) := by
      rintro (h1 | h2)
      · rw [htr] at h1; cases h1
      · simp only [Option.getD_some] at h2; omega
    constructor
    · rw [(processAddedEvent_flags_of_find g gw cols (some b) eb removes e removed hfind).2,
        if_neg hnc]
    · rw [(processAddedEvent_flags_of_find g gw cols (some b) eb removes e removed hfind).1,
        if_neg hnc]
  · intro env l hrem hmem hcols hok
    subst hrem
    exact processAddedEvent_mem_getProjects g gw cols sb eb env e l hmem hcols hok

/-- Witness for C3 (amended): removal at block 40, `startBlock = 10`
(nonzero, before the removal), no `endBlock`: the recipient is locked and
not hidden. -/
theorem c3_removal_flags_witness :
    (processAddedEvent emptyDecoder "" [] (some 10) none
        [{ tcrItemId := "5", blockNumber := 40 }]
        { tcrItemId := "5", metadata := "m", index := 2, blockNumber := 20 }).isLocked
      = true ∧
    (processAddedEvent emptyDecoder "" [] (some 10) none
        [{ tcrItemId := "5", blockNumber := 40 }]
        { tcrItemId := "5", metadata := "m", index := 2, blockNumber := 20 }).isHidden
      = (jsTruthy none && decide ((none : Option Nat).getD 0 ≤ 20)) :=
  (c3_removal_flags emptyDecoder "" [] (some 10) none
      [{ tcrItemId := "5", blockNumber := 40 }]
      { tcrItemId := "5", metadata := "m", index := 2, blockNumber := 20 }
      { tcrItemId := "5", blockNumber := 40 } (by decide)).2.2.2.1
    10 rfl (by decide) (by decide)

/-- Counterexample for C6 as stated: `endBlock = 0` is supplied and the
add event (block 10) occurred at or after it, so the claim asserts
`isHidden = true`; but `0` is falsy in the source's `endBlock &&
event.blockNumber >= endBlock` test, so the code leaves
`isHidden = false`. -/
theorem c6_counterexample :
    (getProjectsD emptyDecoder "" plainAddedEnv none (some 0)).map Project.isHidden
      = [false] := by
  decide

/-- C6 (amended): in `getProjects`, for every locally-added recipient: if
a nonzero `endBlock` is supplied and the add event occurred at or after
it, `isHidden = true` (an `endBlock` of 0 is falsy and treated as
absent); and if `endBlock` is supplied with the add event strictly before
it and no removal event matches the id, both flags are false.  Every
processed recipient is in the `getProjects` output. -/
theorem c6_endblock_flags (g : GtcrDecoder) (gw : String)
    (cols : List TcrColumn) (sb eb : Option Nat)
    (removes : List RemovedEvent) (e : AddedEvent) :
    (∀ b, eb = some b → b ≠ 0 → b ≤ e.blockNumber →
       (processAddedEvent g gw cols sb eb removes e).isHidden = true) ∧
    (∀ b, eb = some b → e.blockNumber < b →
       removes.find? (fun r => r.tcrItemId == e.tcrItemId) = none →
       (processAddedEvent g gw cols sb eb removes e).isHidden = false ∧
       (processAddedEvent g gw cols sb eb removes e).isLocked = false) ∧
    (∀ env l, env.recipientRemoved = removes → e ∈ env.recipientAdded →
       getTcrColumns env = some cols →
       getProjects g gw env sb eb = Except.ok l →
       processAddedEvent g gw cols sb eb removes e ∈ l) := by
  refine ⟨?_, ?_, ?_⟩
  · intro b hb hb0 hle
    subst hb
    have hbe : (jsTruthy (some b) &&
        decide ((some b : Option Nat).getD 0 ≤ e.blockNumber)) = true := by
      have h1 : jsTruthy (some b) = true := by simp [jsTruthy, hb0]
      have h2 : decide ((some b : Option Nat).getD 0 ≤ e.blockNumber) = true :=
        decide_eq_true (by simpa using hle)
      rw [h1, h2]
      rfl
    cases hfr : removes.find? (fun r => r.tcrItemId == e.tcrItemId) with
    | none =>
        rw [(processAddedEvent_flags_of_none g gw cols sb (some b) removes e hfr).1]
        exact hbe
    | some removed =>
        rw [(processAddedEvent_flags_of_find g gw cols sb (some b) removes e
            removed hfr).1]
        split
        · rfl
        · exact hbe
  · intro b hb hlt hnone
    subst hb
    have hd : decide ((some b : Option Nat).getD 0 ≤ e.blockNumber) = false := by
      apply decide_eq_false
      simp only [Option.getD_some]
      omega
    constructor
    · rw [(processAddedEvent_flags_of_none g gw cols sb (some b) removes e hnone).1,
        hd, Bool.and_false]
    · exact (processAddedEvent_flags_of_none g gw cols sb (some b) removes e hnone).2
  · intro env l hrem hmem hcols hok
    subst hrem
    exact processAddedEvent_mem_getProjects g gw cols sb eb env e l hmem hcols hok

/-- Witness for C6 (amended): an add at block 150 with `endBlock = 100`
is hidden; an add at block 50 with `endBlock = 100` and no removal has
both flags false. -/
theorem c6_endblock_flags_witness :
    (processAddedEvent emptyDecoder "" [] none (some 100) []
        { tcrItemId := "5", metadata := "m", index := 1, blockNumber := 150 }).isHidden
      = true ∧
    ((processAddedEvent emptyDecoder "" [] none (some 100) []
        { tcrItemId := "6", metadata := "m", index := 1, blockNumber := 50 }).isHidden
        = false ∧
     (processAddedEvent emptyDecoder "" [] none (some 100) []
        { tcrItemId := "6", metadata := "m", index := 1, blockNumber := 50 }).isLocked
        = false) :=
  ⟨(c6_endblock_flags emptyDecoder "" [] none (some 100) []
      { tcrItemId := "5", metadata := "m", index := 1, blockNumber := 150 }).1
      100 rfl (by decide) (by decide),
   (c6_endblock_flags emptyDecoder "" [] none (some 100) []
      { tcrItemId := "6", metadata := "m", index := 1, blockNumber := 50 }).2.1
      100 rfl (by decide) (by decide)⟩

/-- The first-loop body keeps the event's registry index. -/
theorem processAddedEvent_index (g : GtcrDecoder) (gw : String)
    (cols : List TcrColumn) (sb eb : Option Nat)
    (removes : List RemovedEvent) (e : AddedEvent) :
    (processAddedEvent g gw cols sb eb removes e).index = e.index := by
  unfold processAddedEvent applyRemovalFlags applyEndBlockFlag decodeRecipientAdded
  cases removes.find? (fun r => r.tcrItemId == e.tcrItemId) with
  | none => dsimp only; split <;> rfl
  | some removed => dsimp only; split <;> split <;> rfl

/-- The skeleton (id, index, flags) of a first-pass project does not
depend on the decoder, gateway URL, or column schema. -/
theorem processAddedEvent_skeleton (g g' : GtcrDecoder) (gw gw' : String)
    (cols cols' : List TcrColumn) (sb eb : Option Nat)
    (removes : List RemovedEvent) (e : AddedEvent) :
    projectSkeleton (processAddedEvent g gw cols sb eb removes e)
      = projectSkeleton (processAddedEvent g' gw' cols' sb eb removes e) := by
  unfold projectSkeleton
  rw [processAddedEvent_id g gw cols sb eb removes e,
    processAddedEvent_id g' gw' cols' sb eb removes e,
    processAddedEvent_index g gw cols sb eb removes e,
    processAddedEvent_index g' gw' cols' sb eb removes e]
  cases hfr : removes.find? (fun r => r.tcrItemId == e.tcrItemId) with
  | none =>
      rw [(processAddedEvent_flags_of_none g gw cols sb eb removes e hfr).1,
        (processAddedEvent_flags_of_none g' gw' cols' sb eb removes e hfr).1,
        (processAddedEvent_flags_of_none g gw cols sb eb removes e hfr).2,
        (processAddedEvent_flags_of_none g' gw' cols' sb eb removes e hfr).2]
  | some removed =>
      rw [(processAddedEvent_flags_of_find g gw cols sb eb removes e removed hfr).1,
        (processAddedEvent_flags_of_find g' gw' cols' sb eb removes e removed hfr).1,
        (processAddedEvent_flags_of_find g gw cols sb eb removes e removed hfr).2,
        (processAddedEvent_flags_of_find g' gw' cols' sb eb removes e removed hfr).2]

/-- Lists of projects with equal skeletons agree on whether an id is
already present. -/
theorem find?_id_congr (acc acc' : List Project)
    (h : acc.map projectSkeleton = acc'.map projectSkeleton) (t : String) :
    (acc.find? (fun item => item.id == t)).isSome
      = (acc'.find? (fun item => item.id == t)).isSome := by
  induction acc generalizing acc' with
  | nil =>
      cases acc' with
      | nil => rfl
      | cons b l => simp [projectSkeleton] at h
  | cons a rest ih =>
      cases acc' with
      | nil => simp [projectSkeleton] at h
      | cons b l =>
          simp only [List.map_cons, List.cons.injEq] at h
          have hid : a.id = b.id := congrArg (fun q => q.1) h.1
          cases hpa : (a.id == t) with
          | true =>
              have hpb : (b.id == t) = true := by rw [← hid]; exact hpa
              simp only [List.find?, hpa, hpb]
              rfl
          | false =>
              have hpb : (b.id == t) = false := by rw [← hid]; exact hpa
              simp only [List.find?, hpa, hpb]
              exact ih l h.2

/-- One step of the second loop preserves equality of skeletons across
different decoders, gateways and schemas. -/
theorem processSubmittedItem_skeleton (g g' : GtcrDecoder) (gw gw' : String)
    (cols cols' : List TcrColumn) (info : String → String × Nat)
    (acc acc' : List Project) (t : String)
    (h : acc.map projectSkeleton = acc'.map projectSkeleton) :
    (processSubmittedItem g gw cols info acc t).map projectSkeleton
      = (processSubmittedItem g' gw' cols' info acc' t).map projectSkeleton := by
  unfold processSubmittedItem
  have hf := find?_id_congr acc acc' h t
  cases hfa : acc.find? (fun item => item.id == t) with
  | some x =>
      have hs : (acc'.find? (fun item => item.id == t)).isSome = true := by
        rw [← hf, hfa]; rfl
      cases hfb : acc'.find? (fun item => item.id == t) with
      | some y => exact h
      | none => rw [hfb] at hs; cases hs
  | none =>
      have hs : (acc'.find? (fun item => item.id == t)).isSome = false := by
        rw [← hf, hfa]; rfl
      cases hfb : acc'.find? (fun item => item.id == t) with
      | some y => rw [hfb] at hs; cases hs
      | none =>
          dsimp only
          by_cases hst : ((info t).2 != tcrRegisteredStatus) = true
          · rw [if_pos hst, if_pos hst]
            exact h
          · rw [if_neg hst, if_neg hst, List.map_append, List.map_append, h]
            rfl

/-- The whole second loop preserves equality of skeletons. -/
theorem foldl_processSubmittedItem_skeleton (g g' : GtcrDecoder)
    (gw gw' : String) (cols cols' : List TcrColumn)
    (info : String → String × Nat) (items : List String)
    (acc acc' : List Project)
    (h : acc.map projectSkeleton = acc'.map projectSkeleton) :
    ((items.foldl (processSubmittedItem g gw cols info) acc).map projectSkeleton)
      = ((items.foldl (processSubmittedItem g' gw' cols' info) acc').map
          projectSkeleton) := by
  induction items generalizing acc acc' with
  | nil => exact h
  | cons t rest ih =>
      rw [List.foldl_cons, List.foldl_cons]
      exact ih _ _ (processSubmittedItem_skeleton g g' gw gw' cols cols' info
        acc acc' t h)

/-- C7: metadata-decode failures are per-item and never fatal.  The
success of `getProjects` depends only on schema availability, never on
the decoder; the decoder-independent skeleton (id, index, flags) of every
output entry is the same for any two decoders; and an item whose decode
yields no values gets empty presentation fields rather than an error. -/
theorem c7_decode_isolation (g g' : GtcrDecoder) (gw : String)
    (env : RegistryEnv) (sb eb : Option Nat) :
    ((getProjects g gw env sb eb).isOk = (getTcrColumns env).isSome) ∧
    ((getProjects g gw env sb eb).map (fun l => l.map projectSkeleton)
       = (getProjects g' gw env sb eb).map (fun l => l.map projectSkeleton)) ∧
    (∀ cols data, g cols data = [] →
       decodeTcrItemData g gw cols data
         = { address := "", name := "", description := "",
             imageUrl := gw ++ "" }) := by
  refine ⟨?_, ?_, ?_⟩
  · unfold getProjects
    cases getTcrColumns env with
    | none => rfl
    | some cols => rfl
  · unfold getProjects
    cases getTcrColumns env with
    | none => rfl
    | some cols =>
        show Except.ok _ = Except.ok _
        refine congrArg Except.ok ?_
        unfold getProjectsFrom
        apply foldl_processSubmittedItem_skeleton
        rw [List.map_map, List.map_map]
        exact List.map_congr_left (fun e _ =>
          processAddedEvent_skeleton g g' gw gw cols cols sb eb
            env.recipientRemoved e)
  · intro cols data hg
    unfold decodeTcrItemData
    rw [hg]
    rfl

/-- Witness for C7: the always-failing decoder yields a record with empty
presentation fields. -/
theorem c7_decode_isolation_witness :
    decodeTcrItemData emptyDecoder "gw" [] "payload"
      = { address := "", name := "", description := "",
          imageUrl := "gw" ++ "" } :=
  (c7_decode_isolation emptyDecoder emptyDecoder "gw" submittedOnlyEnv
    none none).2.2 [] "payload" rfl

/-- C9: when the schema is available, `getProject` returns `null` exactly
when the curated list's current item data for the id is the empty byte
payload `0x`; otherwise it returns a record whose `isLocked` is true iff
at least one local removal event exists for the id (with no block-window
reasoning), and whose `isHidden` is always false. -/
theorem c9_lookup (g : GtcrDecoder) (gw : String) (env : RegistryEnv)
    (recipientId : String) (cols : List TcrColumn)
    (hcols : getTcrColumns env = some cols) :
    (getProject g gw env recipientId = Except.ok none ↔
       (env.itemInfo recipientId).1 = "0x") ∧
    (∀ p, getProject g gw env recipientId = Except.ok (some p) →
       (p.isLocked = true ↔
          ∃ r ∈ env.recipientRemoved, r.tcrItemId = recipientId) ∧
       p.isHidden = false) := by
  have hmain : getProject g gw env recipientId
      = (if (env.itemInfo recipientId).1 = "0x" then Except.ok none
         else Except.ok (some (applyLocalRemoval env recipientId
            (applyLocalIndex env recipientId
              (baseLookupProject g gw env cols recipientId))))) := by
    unfold getProject
    rw [hcols]
  constructor
  · by_cases hdata : (env.itemInfo recipientId).1 = "0x"
    · rw [hmain, if_pos hdata]
      exact ⟨fun _ => hdata, fun _ => rfl⟩
    · rw [hmain, if_neg hdata]
      constructor
      · intro hc
        exfalso
        injection hc with hc
        exact Option.noConfusion hc
      · intro hc
        exact absurd hc hdata
  · intro p hp
    rw [hmain] at hp
    by_cases hdata : (env.itemInfo recipientId).1 = "0x"
    · rw [if_pos hdata] at hp
      injection hp with hp
      exact Option.noConfusion hp
    · rw [if_neg hdata] at hp
      injection hp with hp
      injection hp with hp
      subst hp
      constructor
      · by_cases hrem : ((env.recipientRemoved.filter
            (fun r => r.tcrItemId == recipientId)).isEmpty = true)
        · have hlock : (applyLocalRemoval env recipientId
              (applyLocalIndex env recipientId
                (baseLookupProject g gw env cols recipientId))).isLocked
              = false := by
            unfold applyLocalRemoval
            rw [if_pos hrem]
            unfold applyLocalIndex
            cases env.recipientAdded.filter (fun e => e.tcrItemId == recipientId) with
            | nil => rfl
            | cons a rest => rfl
          rw [hlock]
          constructor
          · intro hc
            exact absurd hc (by simp)
          · rintro ⟨r, hr, hrid⟩
            exfalso
            have hfil : env.recipientRemoved.filter
                (fun x => x.tcrItemId == recipientId) = [] :=
              List.isEmpty_iff.mp hrem
            have hnot := List.filter_eq_nil_iff.mp hfil r hr
            simp [hrid] at hnot
        · have hlock : (applyLocalRemoval env recipientId
              (applyLocalIndex env recipientId
                (baseLookupProject g gw env cols recipientId))).isLocked
              = true := by
            unfold applyLocalRemoval
            rw [if_neg hrem]
          rw [hlock]
          constructor
          · intro _
            have hne : env.recipientRemoved.filter
                (fun x => x.tcrItemId == recipientId) ≠ [] := by
              intro hc
              exact hrem (by rw [hc]; rfl)
            rcases List.exists_mem_of_ne_nil _ hne with ⟨r, hrmem⟩
            have hm := List.mem_filter.mp hrmem
            exact ⟨r, hm.1, by simpa using hm.2⟩
          · intro _
            rfl
      · unfold applyLocalRemoval
        split
        · unfold applyLocalIndex
          cases env.recipientAdded.filter (fun e => e.tcrItemId == recipientId) with
          | nil => rfl
          | cons a rest => rfl
        · unfold applyLocalIndex
          cases env.recipientAdded.filter (fun e => e.tcrItemId == recipientId) with
          | nil => rfl
          | cons a rest => rfl

/-- Witness for C9: on `lookupEnv`, item `"7"` has non-empty data, one
local removal (so `isLocked`), and `isHidden` false. -/
theorem c9_lookup_witness :
    (lookupResultProject.isLocked = true ↔
       ∃ r ∈ lookupEnv.recipientRemoved, r.tcrItemId = "7") ∧
    lookupResultProject.isHidden = false :=
  (c9_lookup emptyDecoder "" lookupEnv "7" [] rfl).2 lookupResultProject rfl

end ClrFund
